import Mathlib

/-!
Verification development for the carnatic_scraping repository.

The repository has three batch stages communicating through JSON files:
an Extractor (`raga_scraper.py`), a Fetcher (`audio_downloader.py`) and a
Reconciler (`database_populator.py`).  This file gives a shallow embedding
of the pure data-consistency core of those stages — the deterministic
path computation, the sanitization function, the Fetcher's main loop and
download-attempt result handling, and the Reconciler's document builder —
and proves the specification claims about them.

Machine-level effects are made explicit: the filesystem is a list of
existing paths, the external tool invocation is an abstract outcome, and
a possibly-failing `os.remove` is a Boolean parameter (the source wraps
every `os.remove` in `try/except OSError`).
-/

namespace CarnaticScraping

/-! ## Character classes

`sanitize_filename_component` (identical in `audio_downloader.py` lines
27–32 and `database_populator.py` lines 42–48) uses Python regexes
`[^\w\s-]` and `\s+`.  `isWordChar` models Python's `\w`: the ASCII word
characters `[a-zA-Z0-9_]` together with the Latin-1 Supplement /
Latin Extended-A letters (U+00C0–U+024F minus the two operators × U+00D7
and ÷ U+00F7), which covers the diacritic letters appearing in raga
names (e.g. 'ē'); the rest of Python's full Unicode word-character table
is outside the repertoire this repository manipulates.  `isPySpace`
models Python's `\s` on that same repertoire (the six ASCII whitespace
characters). -/

def isWordChar (c : Char) : Bool :=
  decide ((0x30 ≤ c.toNat ∧ c.toNat ≤ 0x39) ∨ (0x41 ≤ c.toNat ∧ c.toNat ≤ 0x5A)
    ∨ (0x61 ≤ c.toNat ∧ c.toNat ≤ 0x7A) ∨ c = '_'
    ∨ (0xC0 ≤ c.toNat ∧ c.toNat ≤ 0x24F ∧ c.toNat ≠ 0xD7 ∧ c.toNat ≠ 0xF7))

def isPySpace (c : Char) : Bool :=
  decide (c = ' ' ∨ c = '\t' ∨ c = '\n' ∨ c = '\r' ∨ c.toNat = 0x0B ∨ c.toNat = 0x0C)

/-- A maximal run of whitespace becomes a single `'_'`; models
`re.sub(r'\s+', '_', s)`.  The Boolean flag records whether the previous
character was part of a whitespace run. -/
def replaceSpaceRunsAux : Bool → List Char → List Char
  | _, [] => []
  | inRun, c :: rest =>
    if isPySpace c then
      if inRun then replaceSpaceRunsAux true rest
      else '_' :: replaceSpaceRunsAux true rest
    else c :: replaceSpaceRunsAux false rest

def replaceSpaceRuns (l : List Char) : List Char :=
  replaceSpaceRunsAux false l

/-- Models Python `str.strip('_')`: remove leading and trailing `'_'`. -/
def stripUnderscores (l : List Char) : List Char :=
  ((l.dropWhile (· == '_')).reverse.dropWhile (· == '_')).reverse

/-- `sanitize_filename_component` from `audio_downloader.py` lines 27–32,
byte-identical in `database_populator.py` lines 42–48:
empty input yields `"_"`; otherwise characters outside `[\w\s-]` are
removed, whitespace runs collapse to `'_'`, edge underscores are
stripped, and an empty result falls back to `"_"`. -/
def sanitize_filename_component (name_part : String) : String :=
  if name_part = "" then "_"
  else
    let kept := name_part.data.filter fun c => isWordChar c || isPySpace c || c == '-'
    let stripped := stripUnderscores (replaceSpaceRuns kept)
    if stripped = [] then "_" else String.mk stripped

/-! ## POSIX path model

`os.path.join`, `os.path.normpath` and `os.path.abspath` as used by the
two path-computation sites, translated from CPython's `posixpath`. -/

def strStartsWithSlash (s : String) : Bool :=
  decide (s.data.head? = some '/')

def strEndsWithSlash (s : String) : Bool :=
  decide (s.data.getLast? = some '/')

/-- `posixpath.join` for two components. -/
def posixJoin (a b : String) : String :=
  if strStartsWithSlash b then b
  else if a = "" ∨ strEndsWithSlash a then a ++ b
  else a ++ "/" ++ b

/-- `str.split('/')` on the character list. -/
def splitSlash : List Char → List (List Char)
  | [] => [[]]
  | c :: rest =>
    if c = '/' then [] :: splitSlash rest
    else
      match splitSlash rest with
      | [] => [[c]]
      | h :: t => (c :: h) :: t

/-- The component-accumulation step of `posixpath.normpath`. -/
def normpathFold (initialSlashes : Bool) (newComps : List (List Char))
    (comp : List Char) : List (List Char) :=
  if comp = [] ∨ comp = ['.'] then newComps
  else if comp ≠ ['.', '.'] ∨ (initialSlashes = false ∧ newComps = [])
      ∨ (newComps ≠ [] ∧ newComps.getLast? = some ['.', '.']) then
    newComps ++ [comp]
  else if newComps ≠ [] then newComps.dropLast
  else newComps

/-- `posixpath.normpath`. -/
def normpath (path : String) : String :=
  if path = "" then "."
  else
    let l := path.data
    let islashes : Nat :=
      if l.head? = some '/' then
        if l.take 2 = ['/', '/'] ∧ l.take 3 ≠ ['/', '/', '/'] then 2 else 1
      else 0
    let newComps := (splitSlash l).foldl (normpathFold (decide (0 < islashes))) []
    let joined := List.replicate islashes '/' ++ List.intercalate ['/'] newComps
    if joined = [] then "." else String.mk joined

/-- `posixpath.abspath`, with the process working directory `cwd` made an
explicit parameter. -/
def abspath (cwd path : String) : String :=
  if strStartsWithSlash path then normpath path
  else normpath (posixJoin cwd path)

/-! ## The two deterministic path computations -/

def BASE_AUDIO_DIR : String := "audio_data/"

/-- The `output_filepath` computed by the Fetcher's
`download_audio_segment` (`audio_downloader.py` lines 36–60): directory
`os.path.join(BASE_AUDIO_DIR, sanitized_raga_name)`, segment name
`sanitize(video_id)` plus the suffix chosen from the start/end offsets,
extension `.mp3`, and finally `os.path.abspath` of the joined path. -/
def download_output_filepath (cwd raga_name video_id : String)
    (start_seconds end_seconds : Option Int) : String :=
  let sanitized_raga_name := sanitize_filename_component raga_name
  let output_raga_dir := posixJoin BASE_AUDIO_DIR sanitized_raga_name
  let segment_name_part := sanitize_filename_component video_id ++
    (match start_seconds, end_seconds with
     | some s, some e => "_" ++ toString s ++ "_" ++ toString e
     | some s, none => "_" ++ toString s ++ "_inf"
     | none, _ => "_full")
  let output_filename := segment_name_part ++ ".mp3"
  abspath cwd (posixJoin output_raga_dir output_filename)

/-- `construct_expected_filepath` from `database_populator.py` lines
50–68: same sanitization and suffix rule, but the result is the relative
`os.path.join(BASE_AUDIO_DIR, sanitized_raga_name, output_filename)` with
no `abspath`. -/
def construct_expected_filepath (raga_name video_id : String)
    (start_seconds end_seconds : Option Int) : String :=
  let sanitized_raga_name := sanitize_filename_component raga_name
  let segment_name_part := sanitize_filename_component video_id ++
    (match start_seconds, end_seconds with
     | some s, some e => "_" ++ toString s ++ "_" ++ toString e
     | some s, none => "_" ++ toString s ++ "_inf"
     | none, _ => "_full")
  let output_filename := segment_name_part ++ ".mp3"
  posixJoin (posixJoin BASE_AUDIO_DIR sanitized_raga_name) output_filename

/-- The suffix rule as the specification states it (both offsets present
→ `_{start}_{end}`; only start → `_{start}_inf`; neither → `_full`).
Spec-side definition used to state the claims. -/
def suffix_rule : Option Int → Option Int → String
  | some s, some e => "_" ++ toString s ++ "_" ++ toString e
  | some s, none => "_" ++ toString s ++ "_inf"
  | none, _ => "_full"

/-! ## Data model

The JSON objects exchanged between the stages, as dictionaries with
possibly-absent keys; `Option` models `dict.get` returning `None`.
`pyTruthy` models Python truthiness of such a value (`None` and the
empty string are falsy). -/

def pyTruthy : Option String → Bool
  | none => false
  | some s => decide (s ≠ "")

/-- One element of a raga record's `Audio_URLs` list. -/
structure AudioURLInfo where
  video_id : Option String
  url : Option String
  start_seconds : Option Int
  end_seconds : Option Int
deriving DecidableEq, Repr

/-- One element of the Extractor's output array (`refined_raga_data.json`). -/
structure RagaEntry where
  Raga : Option String
  Raga_URL : Option String
  Melakartha_Number : Option Int
  Melakartha_Name : Option String
  Arohana : Option String
  Avarohana : Option String
  Raw_Table_Data : Option String
  Audio_URLs : List AudioURLInfo
deriving DecidableEq, Repr

/-- One element of a persisted document's `Audio_Files` list
(`database_populator.py` lines 156–164). -/
structure AudioFileDoc where
  original_video_id : String
  original_url : String
  start_seconds : Option Int
  end_seconds : Option Int
  downloaded_path : Option String
  download_status : String
deriving DecidableEq, Repr

/-- The `raga_document_for_db` dictionary (`database_populator.py` lines
130–140), before `db_manager` stamps `last_updated`. -/
structure RagaDocument where
  Raga : String
  Raga_URL : Option String
  Melakartha_Number : Option Int
  Melakartha_Name : Option String
  Arohana : Option String
  Avarohana : Option String
  Raw_Table_Data : Option String
  Audio_Files : List AudioFileDoc
deriving DecidableEq, Repr

/-! ## Reconciler (`database_populator.py` `main`, lines 121–191) -/

/-- The body of the Reconciler's inner loop over `Audio_URLs`
(`database_populator.py` lines 143–173): an entry missing `video_id` or
`url` (absent key or empty string, both falsy) is skipped; otherwise the
expected path is recomputed and the entry is marked `success` with that
path exactly when the path is in the successful-downloads set, else
`failed` with a null path. -/
def process_audio_url_info (raga_name : String)
    (successful_download_paths : List String)
    (audio_url_info : AudioURLInfo) : Option AudioFileDoc :=
  if pyTruthy audio_url_info.video_id = false
      ∨ pyTruthy audio_url_info.url = false then none
  else
    let video_id := audio_url_info.video_id.getD ""
    let original_url := audio_url_info.url.getD ""
    let expected_path := construct_expected_filepath raga_name video_id
      audio_url_info.start_seconds audio_url_info.end_seconds
    let audio_file_doc : AudioFileDoc :=
      { original_video_id := video_id
        original_url := original_url
        start_seconds := audio_url_info.start_seconds
        end_seconds := audio_url_info.end_seconds
        downloaded_path := none
        download_status := "failed" }
    if expected_path ∈ successful_download_paths then
      some { audio_file_doc with
               download_status := "success"
               downloaded_path := some expected_path }
    else some audio_file_doc

/-- The body of the Reconciler's outer loop (`database_populator.py`
lines 121–173): an entry whose `Raga` name is absent or empty is dropped
with a warning; otherwise the document mirrors the entry's metadata and
embeds one processed audio entry per retained `Audio_URLs` element. -/
def build_raga_document (successful_download_paths : List String)
    (raga_entry : RagaEntry) : Option RagaDocument :=
  if pyTruthy raga_entry.Raga = false then none
  else
    let raga_name := raga_entry.Raga.getD ""
    some
      { Raga := raga_name
        Raga_URL := raga_entry.Raga_URL
        Melakartha_Number := raga_entry.Melakartha_Number
        Melakartha_Name := raga_entry.Melakartha_Name
        Arohana := raga_entry.Arohana
        Avarohana := raga_entry.Avarohana
        Raw_Table_Data := raga_entry.Raw_Table_Data
        Audio_Files := raga_entry.Audio_URLs.filterMap
          (process_audio_url_info raga_name successful_download_paths) }

/-- All documents one Reconciler run prepares, in input order. -/
def populator_documents (successful_download_paths : List String)
    (all_raga_info : List RagaEntry) : List RagaDocument :=
  all_raga_info.filterMap (build_raga_document successful_download_paths)

/-- The three states the download-summary file can be in when the
Reconciler reads it (`database_populator.py` lines 87–100). -/
inductive SummaryFile where
  | missing
  | invalidJson
  | parsed (successful_downloads : List String)
deriving DecidableEq, Repr

/-- `successful_download_paths` after the Reconciler's summary-loading
block (`database_populator.py` lines 87–100): it starts as the empty
set, and both `FileNotFoundError` and `json.JSONDecodeError` are caught
and leave it empty instead of raising. -/
def load_successful_download_paths : SummaryFile → List String
  | .missing => []
  | .invalidJson => []
  | .parsed successful_downloads => successful_downloads

/-! ## Fetcher download attempt (`audio_downloader.py`
`download_audio_segment`, lines 34–109)

The filesystem is a list of existing file paths; `files` is the state
observed by the `os.path.exists` checks after the subprocess call (or
the unchanged state on the branches where the subprocess never ran).
`mkdirOk` is whether `os.makedirs` succeeded, and `removeOk` whether a
reached `os.remove` call succeeded — the source wraps every `os.remove`
in `try/except OSError`, so a failed removal is logged, not raised. -/

inductive ToolOutcome where
  /-- `subprocess.run` returned with this exit code. -/
  | completed (returncode : Int)
  /-- `FileNotFoundError`: the tool is not on PATH. -/
  | toolMissing
  /-- `subprocess.TimeoutExpired`. -/
  | timedOut
  /-- any other exception from the subprocess call. -/
  | otherError
deriving DecidableEq, Repr

/-- Result and effect of one `download_audio_segment` call: the returned
`(success, filepath)` pair, and the file set after the call. -/
def download_audio_segment (cwd raga_name video_id video_url : String)
    (start_seconds end_seconds : Option Int)
    (mkdirOk : Bool) (outcome : ToolOutcome) (files : List String)
    (removeOk : Bool) : (Bool × Option String) × List String :=
  if mkdirOk = false then ((false, none), files)
  else
    let output_filepath :=
      download_output_filepath cwd raga_name video_id start_seconds end_seconds
    match outcome with
    | .completed returncode =>
      if returncode = 0 then
        if output_filepath ∈ files then ((true, some output_filepath), files)
        else ((false, none), files)
      else
        if output_filepath ∈ files then
          if removeOk then ((false, none), files.filter (· ≠ output_filepath))
          else ((false, none), files)
        else ((false, none), files)
    | .toolMissing => ((false, none), files)
    | .timedOut =>
      if output_filepath ∈ files then
        if removeOk then ((false, none), files.filter (· ≠ output_filepath))
        else ((false, none), files)
      else ((false, none), files)
    | .otherError => ((false, none), files)

/-! ## Fetcher main loop (`audio_downloader.py` `main`, lines 111–164)

The loop state carries the two accumulated result lists and the
attempt counter from the source, plus two ghost lists recording which
`(raga_name, audio_url_info)` pair the run called the download for and
which pair it consumed the quota skipping; the ghost fields are written
but never read, so they do not influence the modelled behaviour. -/

/-- The result of `download_audio_segment` as seen by `main`, abstracted
to an oracle over `(raga_name, video_id, video_url, start, end)`. -/
def DLOracle : Type :=
  String → String → String → Option Int → Option Int → Bool × Option String

structure FetcherState where
  successful_downloads : List String
  failed_downloads : List String
  total_downloads_attempted : Nat
  attempted_refs : List (String × AudioURLInfo)
  skipped_refs : List (String × AudioURLInfo)
deriving DecidableEq, Repr

/-- The `for raga_entry in ragas_data` loop of the Fetcher's `main`
(lines 125–154): break once one download was attempted; skip entries
with a falsy name; skip (without touching the counter) entries with an
empty `Audio_URLs` list; for the first audio reference, a falsy
`video_id` or `url` sets the counter to 1 and continues, otherwise the
download runs, its path or the source URL is accumulated, and the
counter is set to 1. -/
def fetcher_loop (dl : DLOracle) : FetcherState → List RagaEntry → FetcherState
  | st, [] => st
  | st, raga_entry :: rest =>
    if st.total_downloads_attempted ≥ 1 then st
    else if pyTruthy raga_entry.Raga = false then fetcher_loop dl st rest
    else
      let raga_name := raga_entry.Raga.getD ""
      match raga_entry.Audio_URLs with
      | [] => fetcher_loop dl st rest
      | audio_url_info :: _ =>
        if pyTruthy audio_url_info.video_id = false
            ∨ pyTruthy audio_url_info.url = false then
          fetcher_loop dl
            { st with
                total_downloads_attempted := 1
                skipped_refs := st.skipped_refs ++ [(raga_name, audio_url_info)] }
            rest
        else
          let video_id := audio_url_info.video_id.getD ""
          let video_url_str := audio_url_info.url.getD ""
          let result := dl raga_name video_id video_url_str
            audio_url_info.start_seconds audio_url_info.end_seconds
          let st1 := { st with
            attempted_refs := st.attempted_refs ++ [(raga_name, audio_url_info)] }
          let st2 :=
            if result.1 = true ∧ pyTruthy result.2 = true then
              { st1 with successful_downloads :=
                  st1.successful_downloads ++ [result.2.getD ""] }
            else
              { st1 with failed_downloads :=
                  st1.failed_downloads ++ [video_url_str] }
          fetcher_loop dl { st2 with total_downloads_attempted := 1 } rest

/-- `main`'s initial accumulators (lines 113–114). -/
def fetcher_init : FetcherState :=
  { successful_downloads := []
    failed_downloads := []
    total_downloads_attempted := 0
    attempted_refs := []
    skipped_refs := [] }

def fetcher_run (dl : DLOracle) (ragas_data : List RagaEntry) : FetcherState :=
  fetcher_loop dl fetcher_init ragas_data

/-- The first raga entry, in input order, with a truthy name and a
non-empty `Audio_URLs` list, paired with the head of that list.
Spec-side definition used to state which reference a run can touch. -/
def first_eligible : List RagaEntry → Option (String × AudioURLInfo)
  | [] => none
  | e :: rest =>
    if pyTruthy e.Raga = false then first_eligible rest
    else
      match e.Audio_URLs with
      | [] => first_eligible rest
      | info :: _ => some (e.Raga.getD "", info)

/-- A safe character in the sense of the specification's round-trip
property: ASCII letters, digits, and the hyphen.  Spec-side definition
used to state the sanitization claim. -/
def isSafeChar (c : Char) : Bool :=
  decide ((0x30 ≤ c.toNat ∧ c.toNat ≤ 0x39) ∨ (0x41 ≤ c.toNat ∧ c.toNat ≤ 0x5A)
    ∨ (0x61 ≤ c.toNat ∧ c.toNat ≤ 0x7A) ∨ c = '-')

/-- A punctuation character in the sense of the sanitization claim: the
ASCII punctuation blocks (U+0021–U+002F, U+003A–U+0040, U+005B–U+0060,
U+007B–U+007E), excluding the hyphen and the underscore, which the
sanitizer deliberately keeps — its own comment counts hyphens among the
safe filename characters, and the underscore is its join character.
Spec-side definition used to state the sanitization claim. -/
def isPunctuation (c : Char) : Bool :=
  decide ((0x21 ≤ c.toNat ∧ c.toNat ≤ 0x2F ∧ c.toNat ≠ 0x2D)
    ∨ (0x3A ≤ c.toNat ∧ c.toNat ≤ 0x40)
    ∨ (0x5B ≤ c.toNat ∧ c.toNat ≤ 0x60 ∧ c.toNat ≠ 0x5F)
    ∨ (0x7B ≤ c.toNat ∧ c.toNat ≤ 0x7E))

/-- The relation between a persisted audio entry and the audio reference
it was built from: the entry carries the original video identifier and
source URL. -/
def audio_entry_matches (d : AudioFileDoc) (info : AudioURLInfo) : Prop :=
  info.video_id = some d.original_video_id ∧ info.url = some d.original_url

/-! ## Supporting lemmas -/

theorem mem_replaceSpaceRunsAux {c : Char} :
    ∀ {b : Bool} {l : List Char}, c ∈ replaceSpaceRunsAux b l →
      c = '_' ∨ (c ∈ l ∧ isPySpace c = false) := by
  intro b l
  induction l generalizing b with
  | nil => intro h; simp [replaceSpaceRunsAux] at h
  | cons a rest ih =>
    intro h
    by_cases ha : isPySpace a
    · cases b with
      | true =>
        simp only [replaceSpaceRunsAux, ha, if_true] at h
        rcases ih h with h' | ⟨hm, hs⟩
        · exact Or.inl h'
        · exact Or.inr ⟨List.mem_cons_of_mem _ hm, hs⟩
      | false =>
        simp only [replaceSpaceRunsAux, ha, if_true] at h
        rcases List.mem_cons.mp h with rfl | h'
        · exact Or.inl rfl
        · rcases ih h' with h'' | ⟨hm, hs⟩
          · exact Or.inl h''
          · exact Or.inr ⟨List.mem_cons_of_mem _ hm, hs⟩
    · simp only [replaceSpaceRunsAux, ha, if_false] at h
      rcases List.mem_cons.mp h with rfl | h'
      · exact Or.inr ⟨List.mem_cons_self _ _, by simpa using ha⟩
      · rcases ih h' with h'' | ⟨hm, hs⟩
        · exact Or.inl h''
        · exact Or.inr ⟨List.mem_cons_of_mem _ hm, hs⟩

theorem mem_stripUnderscores {c : Char} {l : List Char}
    (h : c ∈ stripUnderscores l) : c ∈ l := by
  unfold stripUnderscores at h
  rw [List.mem_reverse] at h
  have h1 := (List.dropWhile_sublist (l := (l.dropWhile (· == '_')).reverse)
    (· == '_')).subset h
  rw [List.mem_reverse] at h1
  exact (List.dropWhile_sublist (· == '_')).subset h1

theorem sanitize_chars {s : String} {c : Char}
    (h : c ∈ (sanitize_filename_component s).data) :
    isWordChar c = true ∨ c = '-' := by
  unfold sanitize_filename_component at h
  by_cases hs : s = ""
  · simp only [hs, if_true] at h
    have : c = '_' := by simpa using h
    subst this; left; decide
  · simp only [hs, if_false] at h
    set kept := s.data.filter (fun c => isWordChar c || isPySpace c || c == '-')
      with hkept
    by_cases hstr : stripUnderscores (replaceSpaceRuns kept) = []
    · simp only [hstr, if_true] at h
      have : c = '_' := by simpa using h
      subst this; left; decide
    · simp only [hstr, if_false] at h
      have h1 : c ∈ replaceSpaceRuns kept := mem_stripUnderscores h
      rcases mem_replaceSpaceRunsAux h1 with rfl | ⟨hm, hsp⟩
      · left; decide
      · rw [hkept, List.mem_filter] at hm
        have hp := hm.2
        simp only [Bool.or_eq_true, beq_iff_eq] at hp
        rcases hp with (hw | hspc) | hd
        · exact Or.inl hw
        · rw [hspc] at hsp; cases hsp
        · exact Or.inr hd

theorem word_or_hyphen_not_punct {c : Char}
    (h : isWordChar c = true ∨ c = '-') : isPunctuation c = false := by
  rcases h with h | rfl
  · rw [isWordChar, decide_eq_true_eq] at h
    rcases h with h | h | h | rfl | h <;>
      first
        | decide
        | (rw [isPunctuation, decide_eq_false_iff_not]; intro hp; omega)
  · decide

theorem word_or_hyphen_not_space {c : Char}
    (h : isWordChar c = true ∨ c = '-') : isPySpace c = false := by
  rcases h with h | rfl
  · rw [isWordChar, decide_eq_true_eq] at h
    rw [isPySpace, decide_eq_false_iff_not]
    rintro (rfl | rfl | rfl | rfl | hb | hb) <;>
      rcases h with h | h | h | h | h <;>
      simp_all
  · decide

theorem sanitize_data_ne_nil (s : String) :
    (sanitize_filename_component s).data ≠ [] := by
  unfold sanitize_filename_component
  by_cases hs : s = ""
  · simp [hs]
  · simp only [hs, if_false]
    by_cases hstr : stripUnderscores (replaceSpaceRuns
        (s.data.filter (fun c => isWordChar c || isPySpace c || c == '-'))) = []
    · simp [hstr]
    · simp [hstr]

theorem sanitize_ne_empty (s : String) : sanitize_filename_component s ≠ "" := by
  intro h
  exact sanitize_data_ne_nil s (by rw [h])

theorem sanitize_head_ne_slash (s : String) :
    (sanitize_filename_component s).data.head? ≠ some '/' := by
  intro h
  have hm : '/' ∈ (sanitize_filename_component s).data :=
    List.mem_of_mem_head? (by rw [h]; rfl)
  rcases sanitize_chars hm with hw | hd
  · exact absurd hw (by decide)
  · exact absurd hd (by decide)

theorem sanitize_getLast_ne_slash (s : String) :
    (sanitize_filename_component s).data.getLast? ≠ some '/' := by
  intro h
  have hm : '/' ∈ (sanitize_filename_component s).data :=
    List.mem_of_getLast?_eq_some h
  rcases sanitize_chars hm with hw | hd
  · exact absurd hw (by decide)
  · exact absurd hd (by decide)

theorem posixJoin_base (x : String) (hx : x.data.head? ≠ some '/') :
    posixJoin BASE_AUDIO_DIR x = BASE_AUDIO_DIR ++ x := by
  unfold posixJoin
  rw [if_neg, if_pos]
  · right; decide
  · simp [strStartsWithSlash, hx]

theorem posixJoin_general (a b : String) (ha1 : a ≠ "")
    (ha2 : a.data.getLast? ≠ some '/') (hb : b.data.head? ≠ some '/') :
    posixJoin a b = a ++ "/" ++ b := by
  unfold posixJoin
  rw [if_neg, if_neg]
  · rintro (h1 | h2)
    · exact ha1 h1
    · rw [strEndsWithSlash, decide_eq_true_eq] at h2
      exact ha2 h2
  · simp [strStartsWithSlash, hb]

/-! ## The claims -/

/-- C1 (code bug): at the concrete input raga `"X"`, video `"abc"`, no
offsets, and working directory `"/root"`, the Fetcher's
`download_audio_segment` computes the absolute path
`/root/audio_data/X/abc_full.mp3` (it applies `os.path.abspath`) while
the Reconciler's `construct_expected_filepath` computes the relative
path `audio_data/X/abc_full.mp3`; the two strings differ, so the
successful-downloads set recorded by the Fetcher can never match the
paths the Reconciler recomputes (unless the working directory is the
filesystem root). -/
theorem c1_path_divergence :
    download_output_filepath "/root" "X" "abc" none none
        = "/root/audio_data/X/abc_full.mp3"
      ∧ construct_expected_filepath "X" "abc" none none
        = "audio_data/X/abc_full.mp3"
      ∧ download_output_filepath "/root" "X" "abc" none none
        ≠ construct_expected_filepath "X" "abc" none none := by
  refine ⟨by decide, by decide, by decide⟩

/-- C2: in both the Fetcher's and the Reconciler's path computation, the
filename appended under the sanitized raga directory is the sanitized
video identifier followed by exactly the suffix `_{start}_{end}` /
`_{start}_inf` / `_full` (by presence of the offsets) and `.mp3`; the
Fetcher additionally resolves that same relative path through
`os.path.abspath`. -/
theorem c2_suffix_rule (cwd raga_name video_id : String)
    (start_seconds end_seconds : Option Int) :
    construct_expected_filepath raga_name video_id start_seconds end_seconds
      = "audio_data/" ++ sanitize_filename_component raga_name ++ "/"
        ++ (sanitize_filename_component video_id
            ++ suffix_rule start_seconds end_seconds ++ ".mp3")
    ∧ download_output_filepath cwd raga_name video_id start_seconds end_seconds
      = abspath cwd ("audio_data/" ++ sanitize_filename_component raga_name ++ "/"
        ++ (sanitize_filename_component video_id
            ++ suffix_rule start_seconds end_seconds ++ ".mp3")) := by
  have hvne : (sanitize_filename_component video_id).data ≠ [] :=
    sanitize_data_ne_nil video_id
  have hfile : ∀ t : String,
      ((sanitize_filename_component video_id ++ t).data).head? ≠ some '/' := by
    intro t
    rw [String.data_append, List.head?_append_of_ne_nil _ hvne]
    exact sanitize_head_ne_slash video_id
  have hdir1 : posixJoin BASE_AUDIO_DIR (sanitize_filename_component raga_name)
      = BASE_AUDIO_DIR ++ sanitize_filename_component raga_name :=
    posixJoin_base _ (sanitize_head_ne_slash raga_name)
  have hdirne : BASE_AUDIO_DIR ++ sanitize_filename_component raga_name ≠ "" := by
    intro h
    rw [String.ext_iff, String.data_append] at h
    exact sanitize_data_ne_nil raga_name (List.append_eq_nil.mp h).2
  have hdirlast : (BASE_AUDIO_DIR ++ sanitize_filename_component raga_name).data.getLast?
      ≠ some '/' := by
    rw [String.data_append,
      List.getLast?_append_of_ne_nil _ (sanitize_data_ne_nil raga_name)]
    exact sanitize_getLast_ne_slash raga_name
  have key : ∀ t : String,
      posixJoin (posixJoin BASE_AUDIO_DIR (sanitize_filename_component raga_name))
          (sanitize_filename_component video_id ++ t)
        = "audio_data/" ++ sanitize_filename_component raga_name ++ "/"
          ++ (sanitize_filename_component video_id ++ t) := by
    intro t
    rw [hdir1, posixJoin_general _ _ hdirne hdirlast (hfile t)]
    rfl
  constructor
  · show posixJoin (posixJoin BASE_AUDIO_DIR (sanitize_filename_component raga_name))
        (sanitize_filename_component video_id ++ _ ++ ".mp3") = _
    rcases start_seconds with _ | s <;> rcases end_seconds with _ | e <;>
      · rw [String.append_assoc, key]
        simp [suffix_rule, String.append_assoc]
  · show abspath cwd (posixJoin
        (posixJoin BASE_AUDIO_DIR (sanitize_filename_component raga_name))
        (sanitize_filename_component video_id ++ _ ++ ".mp3")) = _
    rcases start_seconds with _ | s <;> rcases end_seconds with _ | e <;>
      · rw [String.append_assoc, key]
        simp [suffix_rule, String.append_assoc]

/-- C4 counterexample: the empty string contains only safe characters
(vacuously), yet `sanitize_filename_component` maps it to `"_"`, not to
itself (`audio_downloader.py` line 28 / `database_populator.py` line
44: `if not name_part: return "_"`), so the sanitizer is not the
identity on every string containing only safe characters. -/
theorem c4_counterexample_empty_string :
    sanitize_filename_component "" = "_" ∧ ("_" : String) ≠ "" :=
  ⟨rfl, by decide⟩

/-- C4 (amended): `sanitize_filename_component` is the identity on
every NON-EMPTY string of safe characters (ASCII letters, digits,
hyphen — the empty string instead maps to `"_"`), and for every string
its result is a non-empty token containing no punctuation and no
whitespace (runs of whitespace having been joined by underscores) — in
particular for every string containing punctuation, as the punctuated
example `"Abhēri, Test!" ↦ "Abhēri_Test"` illustrates. -/
theorem c4_sanitize_round_trip (s : String) :
    (s ≠ "" → (∀ c ∈ s.data, isSafeChar c = true) →
      sanitize_filename_component s = s)
    ∧ sanitize_filename_component s ≠ ""
    ∧ (∀ c ∈ (sanitize_filename_component s).data, isPunctuation c = false)
    ∧ (∀ c ∈ (sanitize_filename_component s).data, isPySpace c = false)
    ∧ sanitize_filename_component "Abhēri, Test!" = "Abhēri_Test" := by
  refine ⟨?_, sanitize_ne_empty s,
    fun c hc => word_or_hyphen_not_punct (sanitize_chars hc),
    fun c hc => word_or_hyphen_not_space (sanitize_chars hc),
    by decide⟩
  intro hne hsafe
  have hword : ∀ c ∈ s.data, (isWordChar c || isPySpace c || c == '-') = true := by
    intro c hc
    have h := hsafe c hc
    rw [isSafeChar, decide_eq_true_eq] at h
    rcases h with h | h | h | h
    · simp [isWordChar]; omega
    · simp [isWordChar]; omega
    · simp [isWordChar]; omega
    · simp [h]
  have hnospace : ∀ c ∈ s.data, isPySpace c = false := by
    intro c hc
    have h := hsafe c hc
    rw [isSafeChar, decide_eq_true_eq] at h
    rw [isPySpace]
    simp only [decide_eq_false_iff_not]
    rintro (rfl | rfl | rfl | rfl | hb | hb) <;>
      rcases h with h | h | h | h <;> simp_all
  have hnounder : ∀ c ∈ s.data, (c == '_') = false := by
    intro c hc
    have h := hsafe c hc
    rw [isSafeChar, decide_eq_true_eq] at h
    simp only [beq_eq_false_iff_ne, ne_eq]
    rintro rfl
    rcases h with h | h | h | h <;> simp_all
  have hfilter : s.data.filter (fun c => isWordChar c || isPySpace c || c == '-')
      = s.data := List.filter_eq_self.mpr hword
  have hrsr : ∀ l : List Char, (∀ c ∈ l, isPySpace c = false) →
      ∀ b, replaceSpaceRunsAux b l = l := by
    intro l
    induction l with
    | nil => intro _ b; rfl
    | cons a rest ih =>
      intro h b
      have ha := h a (List.mem_cons_self _ _)
      simp only [replaceSpaceRunsAux, ha, if_false, Bool.false_eq_true]
      rw [ih (fun c hc => h c (List.mem_cons_of_mem _ hc)) false]
  have hdrop : ∀ l : List Char, (∀ c ∈ l, (c == '_') = false) →
      l.dropWhile (· == '_') = l := by
    intro l h
    cases l with
    | nil => rfl
    | cons a rest =>
      rw [List.dropWhile_cons, h a (List.mem_cons_self _ _)]
      simp
  have hstrip : stripUnderscores s.data = s.data := by
    rw [stripUnderscores, hdrop _ hnounder, hdrop, List.reverse_reverse]
    intro c hc
    exact hnounder c (List.mem_reverse.mp hc)
  rw [sanitize_filename_component, if_neg hne]
  simp only [hfilter, replaceSpaceRuns, hrsr s.data hnospace false, hstrip]
  rw [if_neg (fun h => hne (String.ext (by rw [h])))]

/-- C4 witness: the amended theorem applied at the concrete safe name
`"Raga-1"` (non-empty, all safe characters, sanitizes to itself) and at
the punctuated example (non-empty result). -/
theorem c4_sanitize_round_trip_witness :
    sanitize_filename_component "Raga-1" = "Raga-1"
    ∧ sanitize_filename_component "Abhēri, Test!" ≠ "" :=
  ⟨(c4_sanitize_round_trip "Raga-1").1 (by decide) (by decide),
   (c4_sanitize_round_trip "Abhēri, Test!").2.1⟩

/-- C3: with successful-downloads set exactly
`audio_data/X/abc_full.mp3` and a raga entry named `X` containing an
audio reference with `video_id = "abc"`, a present URL and no offsets,
the Reconciler's document for `X` contains an entry for `abc` marked
`success` with exactly that path, and every entry of the document whose
recomputed path is not in the set is marked `failed` with a null path. -/
theorem c3_reconcile_success_and_failed (entry : RagaEntry)
    (hname : entry.Raga = some "X")
    (info : AudioURLInfo) (hmem : info ∈ entry.Audio_URLs)
    (hvid : info.video_id = some "abc")
    (u : String) (hurl : info.url = some u) (hu : u ≠ "")
    (hs : info.start_seconds = none) (he : info.end_seconds = none)
    (doc : RagaDocument)
    (hdoc : build_raga_document ["audio_data/X/abc_full.mp3"] entry = some doc) :
    (∃ d ∈ doc.Audio_Files, d.original_video_id = "abc"
        ∧ d.download_status = "success"
        ∧ d.downloaded_path = some "audio_data/X/abc_full.mp3")
    ∧ ∀ d ∈ doc.Audio_Files,
        construct_expected_filepath "X" d.original_video_id d.start_seconds
            d.end_seconds ∉ (["audio_data/X/abc_full.mp3"] : List String) →
        d.download_status = "failed" ∧ d.downloaded_path = none := by
  simp only [build_raga_document, hname, Option.getD_some] at hdoc
  rw [if_neg (by decide)] at hdoc
  rw [Option.some_inj] at hdoc
  have hfiles : doc.Audio_Files = entry.Audio_URLs.filterMap
      (process_audio_url_info "X" ["audio_data/X/abc_full.mp3"]) := by
    rw [← hdoc]
  have hexp : construct_expected_filepath "X" "abc" none none
      = "audio_data/X/abc_full.mp3" := by decide
  constructor
  · refine ⟨AudioFileDoc.mk "abc" u none none
        (some "audio_data/X/abc_full.mp3") "success", ?_, rfl, rfl, rfl⟩
    rw [hfiles]
    refine List.mem_filterMap.mpr ⟨info, hmem, ?_⟩
    simp only [process_audio_url_info, hvid, hurl, hs, he, Option.getD_some]
    rw [if_neg (by simp [pyTruthy, hu])]
    rw [hexp, if_pos (List.mem_singleton.mpr rfl)]
  · intro d hd hnot
    rw [hfiles] at hd
    obtain ⟨a, _, hproc⟩ := List.mem_filterMap.mp hd
    simp only [process_audio_url_info] at hproc
    split_ifs at hproc with h1 h2
    · exfalso
      rw [Option.some_inj] at hproc
      subst hproc
      exact hnot h2
    · rw [Option.some_inj] at hproc
      subst hproc
      exact ⟨rfl, rfl⟩

/-- C3 witness: a concrete raga entry named `X` with the reference
`abc` and one other reference `def45678901`, reconciled against the
one-element success set. -/
theorem c3_reconcile_success_and_failed_witness :
    (∃ d ∈ (RagaDocument.mk "X" none none none none none none
        [AudioFileDoc.mk "abc" "https://youtu.be/abc" none none
            (some "audio_data/X/abc_full.mp3") "success",
         AudioFileDoc.mk "def45678901" "https://youtu.be/def45678901" none none
            none "failed"]).Audio_Files,
        d.original_video_id = "abc" ∧ d.download_status = "success"
          ∧ d.downloaded_path = some "audio_data/X/abc_full.mp3")
    ∧ ∀ d ∈ (RagaDocument.mk "X" none none none none none none
        [AudioFileDoc.mk "abc" "https://youtu.be/abc" none none
            (some "audio_data/X/abc_full.mp3") "success",
         AudioFileDoc.mk "def45678901" "https://youtu.be/def45678901" none none
            none "failed"]).Audio_Files,
        construct_expected_filepath "X" d.original_video_id d.start_seconds
            d.end_seconds ∉ (["audio_data/X/abc_full.mp3"] : List String) →
        d.download_status = "failed" ∧ d.downloaded_path = none :=
  c3_reconcile_success_and_failed
    (RagaEntry.mk (some "X") none none none none none none
      [AudioURLInfo.mk (some "abc") (some "https://youtu.be/abc") none none,
       AudioURLInfo.mk (some "def45678901") (some "https://youtu.be/def45678901")
         none none])
    rfl
    (AudioURLInfo.mk (some "abc") (some "https://youtu.be/abc") none none)
    (by decide) rfl "https://youtu.be/abc" rfl (by decide) rfl rfl
    (RagaDocument.mk "X" none none none none none none
      [AudioFileDoc.mk "abc" "https://youtu.be/abc" none none
          (some "audio_data/X/abc_full.mp3") "success",
       AudioFileDoc.mk "def45678901" "https://youtu.be/def45678901" none none
          none "failed"])
    (by decide)

/-- C5: when the download-summary file is missing or malformed JSON the
Reconciler's loading block swallows the error and leaves the
successful-paths set empty, so every audio entry of every produced
document is marked `failed` with a null path (the document builder is a
total function — no exception escapes). -/
theorem c5_missing_or_malformed_summary (file : SummaryFile)
    (hfile : file = .missing ∨ file = .invalidJson)
    (entries : List RagaEntry) (doc : RagaDocument)
    (hdoc : doc ∈ populator_documents (load_successful_download_paths file) entries)
    (d : AudioFileDoc) (hd : d ∈ doc.Audio_Files) :
    d.download_status = "failed" ∧ d.downloaded_path = none := by
  have hempty : load_successful_download_paths file = [] := by
    rcases hfile with rfl | rfl <;> rfl
  rw [hempty, populator_documents] at hdoc
  obtain ⟨entry, _, hbuild⟩ := List.mem_filterMap.mp hdoc
  simp only [build_raga_document] at hbuild
  split_ifs at hbuild with h1
  rw [Option.some_inj] at hbuild
  have hfiles : doc.Audio_Files = entry.Audio_URLs.filterMap
      (process_audio_url_info (entry.Raga.getD "") []) := by rw [← hbuild]
  rw [hfiles] at hd
  obtain ⟨a, _, hproc⟩ := List.mem_filterMap.mp hd
  simp only [process_audio_url_info] at hproc
  split_ifs at hproc with h1 h2
  · exact absurd h2 (List.not_mem_nil _)
  · rw [Option.some_inj] at hproc
    subst hproc
    exact ⟨rfl, rfl⟩

/-- C5 witness: a concrete entry reconciled against a missing summary
file yields a document whose only audio entry is failed with no path. -/
theorem c5_missing_or_malformed_summary_witness :
    (AudioFileDoc.mk "abc" "https://youtu.be/abc" none none none "failed").download_status
        = "failed"
    ∧ (AudioFileDoc.mk "abc" "https://youtu.be/abc" none none none "failed").downloaded_path
        = none :=
  c5_missing_or_malformed_summary .missing (Or.inl rfl)
    [RagaEntry.mk (some "X") none none none none none none
      [AudioURLInfo.mk (some "abc") (some "https://youtu.be/abc") none none]]
    (RagaDocument.mk "X" none none none none none none
      [AudioFileDoc.mk "abc" "https://youtu.be/abc" none none none "failed"])
    (by decide)
    (AudioFileDoc.mk "abc" "https://youtu.be/abc" none none none "failed")
    (by decide)

theorem process_audio_url_info_forall2 (raga_name : String) (S : List String) :
    ∀ l : List AudioURLInfo,
      (∀ info ∈ l, pyTruthy info.video_id = true ∧ pyTruthy info.url = true) →
      List.Forall₂ audio_entry_matches
        (l.filterMap (process_audio_url_info raga_name S)) l := by
  intro l
  induction l with
  | nil => intro _; exact List.Forall₂.nil
  | cons a rest ih =>
    intro hall
    obtain ⟨hv, hu⟩ := hall a (List.mem_cons_self _ _)
    have hcond : ¬ (pyTruthy a.video_id = false ∨ pyTruthy a.url = false) := by
      rw [hv, hu]; simp
    rcases hva : a.video_id with _ | vid
    · rw [hva] at hv; cases hv
    rcases hua : a.url with _ | url
    · rw [hua] at hu; cases hu
    have hproc : ∃ d, process_audio_url_info raga_name S a = some d
        ∧ audio_entry_matches d a := by
      simp only [process_audio_url_info]
      rw [if_neg hcond, hva, hua]
      simp only [Option.getD_some]
      by_cases hmem : construct_expected_filepath raga_name vid
          a.start_seconds a.end_seconds ∈ S
      · rw [if_pos hmem]
        exact ⟨_, rfl, ⟨by rw [hva], by rw [hua]⟩⟩
      · rw [if_neg hmem]
        exact ⟨_, rfl, ⟨by rw [hva], by rw [hua]⟩⟩
    obtain ⟨d, hd, hdm⟩ := hproc
    rw [List.filterMap_cons_some hd]
    exact List.Forall₂.cons hdm (ih fun info hi => hall info (List.mem_cons_of_mem _ hi))

/-- C9: for a raga entry with a (non-empty) name whose audio references
all carry a video identifier and a URL — the defining fields of an
AudioReference — the Reconciler produces a document, and its
`Audio_Files` list corresponds one-to-one, in order, with the entry's
`Audio_URLs` list, each produced entry carrying the original video
identifier and source URL. -/
theorem c9_one_entry_per_reference (entry : RagaEntry) (S : List String)
    (raga_name : String) (hname : entry.Raga = some raga_name)
    (hne : raga_name ≠ "")
    (hall : ∀ info ∈ entry.Audio_URLs,
      pyTruthy info.video_id = true ∧ pyTruthy info.url = true) :
    (build_raga_document S entry).isSome = true
    ∧ ∀ doc, build_raga_document S entry = some doc →
        List.Forall₂ audio_entry_matches doc.Audio_Files entry.Audio_URLs := by
  have hcond : ¬ (pyTruthy entry.Raga = false) := by
    rw [hname]; simp [pyTruthy, hne]
  rw [build_raga_document, if_neg hcond]
  refine ⟨rfl, ?_⟩
  intro doc hdoc
  rw [Option.some_inj] at hdoc
  have : doc.Audio_Files = entry.Audio_URLs.filterMap
      (process_audio_url_info (entry.Raga.getD "") S) := by rw [← hdoc]
  rw [this]
  exact process_audio_url_info_forall2 _ S entry.Audio_URLs hall

/-- C9 witness: a two-reference entry produces a document and the
entry-by-entry correspondence holds there. -/
theorem c9_one_entry_per_reference_witness :
    (build_raga_document [] (RagaEntry.mk (some "X") none none none none none none
      [AudioURLInfo.mk (some "abc") (some "https://youtu.be/abc") none none,
       AudioURLInfo.mk (some "def45678901") (some "https://youtu.be/def45678901")
         (some 5) (some 9)])).isSome = true :=
  (c9_one_entry_per_reference
    (RagaEntry.mk (some "X") none none none none none none
      [AudioURLInfo.mk (some "abc") (some "https://youtu.be/abc") none none,
       AudioURLInfo.mk (some "def45678901") (some "https://youtu.be/def45678901")
         (some 5) (some 9)])
    [] "X" rfl (by decide) (by decide)).1

/-- C6 counterexample: with a non-zero exit code (1), the expected file
present, and the `os.remove` call failing (its `OSError` is caught and
only logged, `audio_downloader.py` lines 92–94), the function returns
failure but the file at the computed output path is NOT deleted — it is
still present afterwards, refuting "on a non-zero exit code it returns
failure and deletes any file present at the computed output path". -/
theorem c6_counterexample_remove_failure :
    (download_audio_segment "/root" "X" "abc" "https://youtu.be/abc" none none
        true (ToolOutcome.completed 1)
        ["/root/audio_data/X/abc_full.mp3"] false).1 = (false, none)
    ∧ "/root/audio_data/X/abc_full.mp3"
        ∈ (download_audio_segment "/root" "X" "abc" "https://youtu.be/abc" none none
            true (ToolOutcome.completed 1)
            ["/root/audio_data/X/abc_full.mp3"] false).2 := by
  exact ⟨by decide, by decide⟩

/-- C6 (amended): with the directory created, the call returns success —
`(True, computed path)` — exactly when the tool exited with code zero
and the expected output file exists afterward; on a non-zero exit code
it returns failure and attempts to delete any file at the computed
path, which is gone afterwards whenever the deletion call succeeds. -/
theorem c6_success_iff_and_cleanup (cwd raga_name video_id video_url : String)
    (start_seconds end_seconds : Option Int) (outcome : ToolOutcome)
    (files : List String) (removeOk : Bool) :
    ((download_audio_segment cwd raga_name video_id video_url start_seconds
        end_seconds true outcome files removeOk).1
      = (true, some (download_output_filepath cwd raga_name video_id
          start_seconds end_seconds))
      ↔ (outcome = .completed 0
        ∧ download_output_filepath cwd raga_name video_id start_seconds
            end_seconds ∈ files))
    ∧ (∀ rc : Int, outcome = .completed rc → rc ≠ 0 →
        (download_audio_segment cwd raga_name video_id video_url start_seconds
            end_seconds true outcome files removeOk).1 = (false, none)
        ∧ (removeOk = true →
            download_output_filepath cwd raga_name video_id start_seconds
              end_seconds
            ∉ (download_audio_segment cwd raga_name video_id video_url
                start_seconds end_seconds true outcome files removeOk).2)) := by
  set p := download_output_filepath cwd raga_name video_id start_seconds
    end_seconds with hp
  constructor
  · cases outcome with
    | completed rc =>
      by_cases h0 : rc = 0
      · subst h0
        by_cases hmem : p ∈ files
        · simp [download_audio_segment, hmem, ← hp]
        · simp [download_audio_segment, hmem, ← hp]
      · by_cases hmem : p ∈ files <;> by_cases hrm : removeOk <;>
          simp [download_audio_segment, hmem, hrm, h0, ← hp]
    | toolMissing => simp [download_audio_segment]
    | timedOut =>
      by_cases hmem : p ∈ files <;> by_cases hrm : removeOk <;>
        simp [download_audio_segment, hmem, hrm, ← hp]
    | otherError => simp [download_audio_segment]
  · rintro rc rfl hrc
    by_cases hmem : p ∈ files
    · cases hrm : removeOk
      · refine ⟨by simp [download_audio_segment, hmem, hrc, ← hp], ?_⟩
        intro h; cases h
      · refine ⟨by simp [download_audio_segment, hmem, hrc, ← hp], fun _ => ?_⟩
        have : (download_audio_segment cwd raga_name video_id video_url
            start_seconds end_seconds true (ToolOutcome.completed rc) files
            true).2 = files.filter (· ≠ p) := by
          simp [download_audio_segment, hmem, hrc, ← hp]
        rw [this]
        intro hin
        have := (List.mem_filter.mp hin).2
        simp at this
    · refine ⟨by simp [download_audio_segment, hmem, hrc, ← hp], fun _ => ?_⟩
      have : (download_audio_segment cwd raga_name video_id video_url
          start_seconds end_seconds true (ToolOutcome.completed rc) files
          removeOk).2 = files := by
        simp [download_audio_segment, hmem, hrc, ← hp]
      rw [this]
      exact hmem

/-- C6 witness: at exit code 2 with the expected file present and a
succeeding removal, the call reports failure and the file is gone. -/
theorem c6_success_iff_and_cleanup_witness :
    (download_audio_segment "/w" "R" "vid" "https://youtu.be/vid" none none
        true (ToolOutcome.completed 2)
        ["/w/audio_data/R/vid_full.mp3"] true).1 = (false, none)
    ∧ "/w/audio_data/R/vid_full.mp3"
        ∉ (download_audio_segment "/w" "R" "vid" "https://youtu.be/vid" none none
            true (ToolOutcome.completed 2)
            ["/w/audio_data/R/vid_full.mp3"] true).2 := by
  have hpath : download_output_filepath "/w" "R" "vid" none none
      = "/w/audio_data/R/vid_full.mp3" := by decide
  have h := (c6_success_iff_and_cleanup "/w" "R" "vid" "https://youtu.be/vid"
      none none (ToolOutcome.completed 2)
      ["/w/audio_data/R/vid_full.mp3"] true).2 2 rfl (by decide)
  exact ⟨h.1, by rw [← hpath]; exact h.2 rfl⟩

/-- C8 counterexample: on a timeout with the partial file present, the
cleanup `os.remove` can itself fail (`audio_downloader.py` lines
102–105 catch `OSError` and only log); then a file remains at the
computed output path after the call returns, refuting the unconditional
"leaves no file at the computed output path". -/
theorem c8_counterexample_remove_failure :
    "/tmp/audio_data/Y/xyz_full.mp3"
      ∈ (download_audio_segment "/tmp" "Y" "xyz" "https://youtu.be/xyz" none none
          true ToolOutcome.timedOut
          ["/tmp/audio_data/Y/xyz_full.mp3"] false).2 := by decide

/-- C8 (amended): an acquisition whose tool invocation times out leaves
no file at the computed output path, provided the best-effort deletion
of the partial file succeeds (or there was no file there to begin
with). -/
theorem c8_timeout_cleanup (cwd raga_name video_id video_url : String)
    (start_seconds end_seconds : Option Int) (files : List String)
    (removeOk : Bool)
    (h : removeOk = true
      ∨ download_output_filepath cwd raga_name video_id start_seconds
          end_seconds ∉ files) :
    download_output_filepath cwd raga_name video_id start_seconds end_seconds
      ∉ (download_audio_segment cwd raga_name video_id video_url start_seconds
          end_seconds true ToolOutcome.timedOut files removeOk).2 := by
  set p := download_output_filepath cwd raga_name video_id start_seconds
    end_seconds with hp
  by_cases hmem : p ∈ files
  · rcases h with rfl | h
    · have : (download_audio_segment cwd raga_name video_id video_url
          start_seconds end_seconds true ToolOutcome.timedOut files true).2
          = files.filter (· ≠ p) := by
        simp [download_audio_segment, hmem, ← hp]
      rw [this]
      intro hin
      have := (List.mem_filter.mp hin).2
      simp at this
    · exact absurd hmem h
  · have : (download_audio_segment cwd raga_name video_id video_url
        start_seconds end_seconds true ToolOutcome.timedOut files removeOk).2
        = files := by
      simp [download_audio_segment, hmem, ← hp]
    rw [this]
    exact hmem

/-- C8 witness: a timed-out attempt with the file present and a
succeeding removal leaves no file at the computed path. -/
theorem c8_timeout_cleanup_witness :
    "/w/audio_data/R/vid_full.mp3"
      ∉ (download_audio_segment "/w" "R" "vid" "https://youtu.be/vid" none none
          true ToolOutcome.timedOut
          ["/w/audio_data/R/vid_full.mp3"] true).2 := by
  have hpath : download_output_filepath "/w" "R" "vid" none none
      = "/w/audio_data/R/vid_full.mp3" := by decide
  have h := c8_timeout_cleanup "/w" "R" "vid" "https://youtu.be/vid" none none
    ["/w/audio_data/R/vid_full.mp3"] true (Or.inl rfl)
  rw [hpath] at h
  exact h

theorem fetcher_loop_of_attempted (dl : DLOracle) (st : FetcherState)
    (h : st.total_downloads_attempted ≥ 1) :
    ∀ ragas : List RagaEntry, fetcher_loop dl st ragas = st := by
  intro ragas
  cases ragas with
  | nil => rfl
  | cons e rest =>
    simp only [fetcher_loop]
    rw [if_pos h]

/-- C7: in a Fetcher run with the quota still unconsumed, an entry with
a truthy name and an empty `Audio_URLs` list is passed over — the loop
continues on the remaining entries with an unchanged state — whereas an
entry whose first audio reference lacks a truthy `video_id` or `url`
sets the attempt counter to 1 (consuming the per-run quota) while
leaving both the successful-paths list and the failed-URLs list
untouched. -/
theorem c7_empty_and_missing_id_rules (dl : DLOracle) (st : FetcherState)
    (h0 : st.total_downloads_attempted = 0)
    (raga_entry : RagaEntry) (rest : List RagaEntry) :
    (pyTruthy raga_entry.Raga = true → raga_entry.Audio_URLs = [] →
      fetcher_loop dl st (raga_entry :: rest) = fetcher_loop dl st rest)
    ∧ (∀ info tl, pyTruthy raga_entry.Raga = true →
        raga_entry.Audio_URLs = info :: tl →
        (pyTruthy info.video_id = false ∨ pyTruthy info.url = false) →
        (fetcher_loop dl st (raga_entry :: rest)).successful_downloads
          = st.successful_downloads
        ∧ (fetcher_loop dl st (raga_entry :: rest)).failed_downloads
          = st.failed_downloads
        ∧ (fetcher_loop dl st (raga_entry :: rest)).total_downloads_attempted
          = 1) := by
  have hlt : ¬ st.total_downloads_attempted ≥ 1 := by omega
  constructor
  · intro ht hurls
    simp only [fetcher_loop, hurls]
    rw [if_neg hlt, if_neg (by simp [ht])]
  · intro info tl ht hurls hskip
    have e1 : fetcher_loop dl st (raga_entry :: rest)
        = { st with
            total_downloads_attempted := 1
            skipped_refs := st.skipped_refs
              ++ [(raga_entry.Raga.getD "", info)] } := by
      simp only [fetcher_loop, hurls]
      rw [if_neg hlt, if_neg (by simp [ht]), if_pos hskip]
      exact fetcher_loop_of_attempted dl _ (le_refl 1) rest
    rw [e1]
    exact ⟨rfl, rfl, rfl⟩

/-- C7 witness: with an always-failing oracle, a raga named `A` with no
audio references is passed over (same result as running on the rest,
here the empty list), and a raga named `B` whose first reference lacks a
`video_id` consumes the quota while both result lists stay empty. -/
theorem c7_empty_and_missing_id_rules_witness :
    fetcher_loop (fun _ _ _ _ _ => (false, none)) fetcher_init
        [RagaEntry.mk (some "A") none none none none none none []]
      = fetcher_loop (fun _ _ _ _ _ => (false, none)) fetcher_init []
    ∧ (fetcher_loop (fun _ _ _ _ _ => (false, none)) fetcher_init
        [RagaEntry.mk (some "B") none none none none none none
          [AudioURLInfo.mk none (some "https://youtu.be/abc") none none]]).successful_downloads
      = []
    ∧ (fetcher_loop (fun _ _ _ _ _ => (false, none)) fetcher_init
        [RagaEntry.mk (some "B") none none none none none none
          [AudioURLInfo.mk none (some "https://youtu.be/abc") none none]]).failed_downloads
      = []
    ∧ (fetcher_loop (fun _ _ _ _ _ => (false, none)) fetcher_init
        [RagaEntry.mk (some "B") none none none none none none
          [AudioURLInfo.mk none (some "https://youtu.be/abc") none none]]).total_downloads_attempted
      = 1 := by
  have h1 := (c7_empty_and_missing_id_rules (fun _ _ _ _ _ => (false, none))
      fetcher_init rfl
      (RagaEntry.mk (some "A") none none none none none none []) []).1
      (by decide) rfl
  have h2 := (c7_empty_and_missing_id_rules (fun _ _ _ _ _ => (false, none))
      fetcher_init rfl
      (RagaEntry.mk (some "B") none none none none none none
        [AudioURLInfo.mk none (some "https://youtu.be/abc") none none]) []).2
      (AudioURLInfo.mk none (some "https://youtu.be/abc") none none) []
      (by decide) rfl (by decide)
  exact ⟨h1, h2.1, h2.2.1, h2.2.2⟩

theorem fetcher_loop_first_eligible (dl : DLOracle) :
    ∀ (ragas : List RagaEntry) (st : FetcherState),
      st.total_downloads_attempted = 0 →
      ((fetcher_loop dl st ragas).attempted_refs = st.attempted_refs
        ∧ (fetcher_loop dl st ragas).skipped_refs = st.skipped_refs
        ∧ first_eligible ragas = none)
      ∨ (∃ x, first_eligible ragas = some x
          ∧ (((fetcher_loop dl st ragas).attempted_refs = st.attempted_refs ++ [x]
              ∧ (fetcher_loop dl st ragas).skipped_refs = st.skipped_refs)
            ∨ ((fetcher_loop dl st ragas).attempted_refs = st.attempted_refs
              ∧ (fetcher_loop dl st ragas).skipped_refs
                  = st.skipped_refs ++ [x]))) := by
  intro ragas
  induction ragas with
  | nil => intro st _; exact Or.inl ⟨rfl, rfl, rfl⟩
  | cons e rest ih =>
    intro st h0
    have hlt : ¬ st.total_downloads_attempted ≥ 1 := by omega
    by_cases ht : pyTruthy e.Raga = false
    · have hloop : fetcher_loop dl st (e :: rest) = fetcher_loop dl st rest := by
        simp only [fetcher_loop]
        rw [if_neg hlt, if_pos ht]
      have hfe : first_eligible (e :: rest) = first_eligible rest := by
        simp only [first_eligible]
        rw [if_pos ht]
      rw [hloop, hfe]
      exact ih st h0
    · cases hurls : e.Audio_URLs with
      | nil =>
        have hloop : fetcher_loop dl st (e :: rest) = fetcher_loop dl st rest := by
          simp only [fetcher_loop, hurls]
          rw [if_neg hlt, if_neg ht]
        have hfe : first_eligible (e :: rest) = first_eligible rest := by
          simp only [first_eligible, hurls]
          rw [if_neg ht]
        rw [hloop, hfe]
        exact ih st h0
      | cons info tl =>
        have hfe : first_eligible (e :: rest)
            = some (e.Raga.getD "", info) := by
          simp only [first_eligible, hurls]
          rw [if_neg ht]
        by_cases hskip : pyTruthy info.video_id = false
            ∨ pyTruthy info.url = false
        · have hloop : fetcher_loop dl st (e :: rest)
              = { st with
                  total_downloads_attempted := 1
                  skipped_refs := st.skipped_refs
                    ++ [(e.Raga.getD "", info)] } := by
            simp only [fetcher_loop, hurls]
            rw [if_neg hlt, if_neg ht, if_pos hskip]
            exact fetcher_loop_of_attempted dl _ (le_refl 1) rest
          rw [hloop, hfe]
          exact Or.inr ⟨_, rfl, Or.inr ⟨rfl, rfl⟩⟩
        · by_cases hres : (dl (e.Raga.getD "") (info.video_id.getD "")
              (info.url.getD "") info.start_seconds info.end_seconds).1 = true
              ∧ pyTruthy (dl (e.Raga.getD "") (info.video_id.getD "")
                (info.url.getD "") info.start_seconds info.end_seconds).2 = true
          · have hloop : fetcher_loop dl st (e :: rest)
                = { st with
                    successful_downloads := st.successful_downloads
                      ++ [(dl (e.Raga.getD "") (info.video_id.getD "")
                          (info.url.getD "") info.start_seconds
                          info.end_seconds).2.getD ""]
                    total_downloads_attempted := 1
                    attempted_refs := st.attempted_refs
                      ++ [(e.Raga.getD "", info)] } := by
              simp only [fetcher_loop, hurls]
              rw [if_neg hlt, if_neg ht, if_neg hskip, if_pos hres]
              exact fetcher_loop_of_attempted dl _ (le_refl 1) rest
            rw [hloop, hfe]
            exact Or.inr ⟨_, rfl, Or.inl ⟨rfl, rfl⟩⟩
          · have hloop : fetcher_loop dl st (e :: rest)
                = { st with
                    failed_downloads := st.failed_downloads
                      ++ [info.url.getD ""]
                    total_downloads_attempted := 1
                    attempted_refs := st.attempted_refs
                      ++ [(e.Raga.getD "", info)] } := by
              simp only [fetcher_loop, hurls]
              rw [if_neg hlt, if_neg ht, if_neg hskip, if_neg hres]
              exact fetcher_loop_of_attempted dl _ (le_refl 1) rest
            rw [hloop, hfe]
            exact Or.inr ⟨_, rfl, Or.inl ⟨rfl, rfl⟩⟩

/-- C10: a single Fetcher run touches at most one audio reference —
the combined count of references it called the download for and
references it consumed the quota skipping is at most one — and any
reference it touched is exactly the first element of the `Audio_URLs`
list of the first raga entry, in input order, with a truthy name and a
non-empty `Audio_URLs` list; references at later indices and all later
ragas are never touched. -/
theorem c10_at_most_one_reference (dl : DLOracle)
    (ragas_data : List RagaEntry) :
    (fetcher_run dl ragas_data).attempted_refs.length
        + (fetcher_run dl ragas_data).skipped_refs.length ≤ 1
    ∧ ∀ x, (x ∈ (fetcher_run dl ragas_data).attempted_refs
        ∨ x ∈ (fetcher_run dl ragas_data).skipped_refs) →
      first_eligible ragas_data = some x := by
  have h := fetcher_loop_first_eligible dl ragas_data fetcher_init rfl
  rcases h with ⟨ha, hs, _⟩ | ⟨x, hx, ⟨ha, hs⟩ | ⟨ha, hs⟩⟩
  · constructor
    · rw [fetcher_run, ha, hs]
      simp [fetcher_init]
    · intro y hy
      rw [fetcher_run] at hy
      rcases hy with hy | hy
      · rw [ha] at hy
        simp [fetcher_init] at hy
      · rw [hs] at hy
        simp [fetcher_init] at hy
  · constructor
    · rw [fetcher_run, ha, hs]
      simp [fetcher_init]
    · intro y hy
      rw [fetcher_run] at hy
      rcases hy with hy | hy
      · rw [ha] at hy
        simp [fetcher_init] at hy
        rw [hy]
        exact hx
      · rw [hs] at hy
        simp [fetcher_init] at hy
  · constructor
    · rw [fetcher_run, ha, hs]
      simp [fetcher_init]
    · intro y hy
      rw [fetcher_run] at hy
      rcases hy with hy | hy
      · rw [ha] at hy
        simp [fetcher_init] at hy
      · rw [hs] at hy
        simp [fetcher_init] at hy
        rw [hy]
        exact hx

/-- C10 witness: with an always-failing oracle and two entries — one
nameless, one named `X` with a single reference — the reference the run
touches is the head reference of the entry named `X`. -/
theorem c10_at_most_one_reference_witness :
    first_eligible
        [RagaEntry.mk none none none none none none none [],
         RagaEntry.mk (some "X") none none none none none none
           [AudioURLInfo.mk (some "abc") (some "https://youtu.be/abc") none none]]
      = some ("X",
          AudioURLInfo.mk (some "abc") (some "https://youtu.be/abc") none none) :=
  (c10_at_most_one_reference (fun _ _ _ _ _ => (false, none))
      [RagaEntry.mk none none none none none none none [],
       RagaEntry.mk (some "X") none none none none none none
         [AudioURLInfo.mk (some "abc") (some "https://youtu.be/abc") none none]]).2
    ("X", AudioURLInfo.mk (some "abc") (some "https://youtu.be/abc") none none)
    (Or.inl (by decide))

end CarnaticScraping
